import Mathlib

/-!
Shallow embedding of the voice-notes core of `src/index.tsx` (mindexpander):
token estimation, the three-stage enrichment pipeline
(transcribe → polish → summarize), and the note/history persistence model,
together with theorems checking the specification's claims against it.
DOM panel updates, status strings and the audio layer are view glue and are
not modelled; external service calls are modelled as an oracle of results.
-/

namespace MindExpander

/-- Whitespace as matched by the JavaScript regexp `\s` (used by
`estimateTokens` in src/index.tsx, line 1019). -/
def wsChar (c : Char) : Bool :=
  c == ' ' || c == '\t' || c == '\n' || c == '\r' || c == '\u000B' || c == '\u000C' ||
  c == '\u00A0' || c == '\u1680' || (0x2000 ≤ c.toNat && c.toNat ≤ 0x200A) ||
  c == '\u2028' || c == '\u2029' || c == '\u202F' || c == '\u205F' || c == '\u3000' ||
  c == '\uFEFF'

/-- JavaScript `text.split(/\s+/)` on a list of characters: the fields between
maximal whitespace runs, with an empty field at an end that starts or ends with
whitespace, and a single empty field on the empty string. -/
def jsSplitWs : List Char → List (List Char)
  | [] => [[]]
  | [c] => if wsChar c then [[], []] else [[c]]
  | c :: c2 :: rest =>
    if wsChar c then
      if wsChar c2 then jsSplitWs (c2 :: rest) else [] :: jsSplitWs (c2 :: rest)
    else
      match jsSplitWs (c2 :: rest) with
      | [] => [[c]]
      | f :: fs => (c :: f) :: fs

/-- `estimateTokens` of src/index.tsx lines 1017-1021:
`Math.ceil(text.split(/\s+/).length / 0.75)`, i.e. the ceiling of
4·n/3 where n is the number of fields of the whitespace split. -/
def estimateTokens (text : String) : Nat :=
  (4 * (jsSplitWs text.data).length + 2) / 3

/-- Number of maximal non-whitespace runs; the boolean argument records
whether the previous character belonged to a word. -/
def countWordsGo : Bool → List Char → Nat
  | _, [] => 0
  | inWord, c :: rest =>
    if wsChar c then countWordsGo false rest
    else (if inWord then 0 else 1) + countWordsGo true rest

/-- Word count of a string in the plain sense of claim C8's phrase "number of
whitespace-separated words": the empty string has 0 words, leading and
trailing whitespace contribute none. -/
def countWords (s : String) : Nat := countWordsGo false s.data

/-- Token estimate as claim C8's words read: `ceil(word_count / 0.75)` with
`word_count` the number of whitespace-separated words. Written from the
spec's words, to be compared with `estimateTokens` from the source. -/
def specTokenEstimate (s : String) : Nat := (4 * countWords s + 2) / 3

/-- `rawTranscription.trim() === ''` of src/index.tsx line 657: a string
trims to empty exactly when all of its characters are whitespace. -/
def jsTrimEmpty (s : String) : Bool := s.data.all wsChar

/-- The `Note` record of src/index.tsx lines 12-21. -/
structure Note where
  id : String
  title : String
  rawTranscription : String
  polishedNoteMarkdown : String
  polishedNoteHtml : String
  summary : String
  timestamp : Nat
  totalTokens : Nat
deriving DecidableEq

/-- Outcome of one external generative-service call: a resolved text or a
thrown error (whose message the catch blocks interpolate). -/
inductive CallResult where
  | ok (text : String)
  | err (msg : String)
deriving DecidableEq

/-- The external collaborators of one pipeline run: the three service-call
results in stage order and the `marked.parse` markdown-to-HTML renderer. -/
structure Oracle where
  transcribeResult : CallResult
  polishResult : CallResult
  summarizeResult : CallResult
  markedParse : String → String

/-- Session and persistence state of `VoiceNotesApp`: the current note, the
running summary, the session token counter, and the parsed content of the
`voiceNotesHistory` storage key. -/
structure AppState where
  currentNote : Option Note
  currentSummary : String
  currentSessionTokens : Nat
  history : List Note
deriving DecidableEq

/-- `addTokenUsage` of src/index.tsx lines 1023-1032. -/
def addTokenUsage (inputTokens outputTokens : Nat) (st : AppState) : AppState :=
  let tok := st.currentSessionTokens + (inputTokens + outputTokens)
  { st with
    currentSessionTokens := tok,
    currentNote := st.currentNote.map (fun n => { n with totalTokens := tok }) }

/-- `this.currentNote.rawTranscription = ...` guarded by `if (this.currentNote)`. -/
def setNoteRaw (t : String) (st : AppState) : AppState :=
  { st with currentNote := st.currentNote.map (fun n => { n with rawTranscription := t }) }

/-- Assignment of both polished fields, guarded by `if (this.currentNote)`. -/
def setNotePolished (md html : String) (st : AppState) : AppState :=
  { st with currentNote := st.currentNote.map (fun n =>
      { n with polishedNoteMarkdown := md, polishedNoteHtml := html }) }

/-- Fixed transcription instruction of src/index.tsx line 613. -/
def transcribeInstruction : String :=
  "Erstelle ein vollständiges, detailliertes Transkript dieses Audios auf Deutsch."

/-- The fixed part of the polish prompt of src/index.tsx lines 670-679. -/
def polishPromptPrefix : String :=
  "Nimm dieses Roh-Transkript von gesprochenen Gedanken und strukturiere es in eine klare, zusammenhängende Notiz unter Verwendung von Markdown. Die Ausgabe soll auf Deutsch sein.\n" ++
  "Organisiere den Inhalt logisch mit Überschriften, Unterüberschriften (falls zutreffend), Aufzählungspunkten oder nummerierten Listen, je nach Inhalt.\n" ++
  "Verwende Fettung zur Hervorhebung von Schlüsselbegriffen oder Aktionspunkten.\n" ++
  "Stelle sicher, dass alle Kernideen aus dem Transkript korrekt erfasst werden.\n" ++
  "Entferne Füllwörter (z.B. \"äh\", \"ähm\", \"sozusagen\", \"weißt du\"), unnötige Wiederholungen und falsche Ansätze, um die Lesbarkeit zu verbessern.\n" ++
  "Das Ziel ist es, die gesprochene Diktatnotiz in ein gut strukturiertes, leicht scanbares und umsetzbares Markdown-Dokument FÜR DIESE SPEZIFISCHE DIKTATNOTIZ umzuwandeln.\n" ++
  "Wenn der Inhalt sehr kurz ist oder eine einzelne Idee darstellt, kann ein einfacher Absatz ausreichen, aber wende dennoch Markdown für Hervorhebungen oder Links an, falls vorhanden.\n" ++
  "\nRoh-Transkript:\n"

/-- The polish request text (`polishPrompt` template of src/index.tsx). -/
def polishPrompt (raw : String) : String := polishPromptPrefix ++ raw

/-- The fixed head of the summary prompt of src/index.tsx lines 741-756. -/
def summaryPromptPrefix : String :=
  "Du bist ein KI-Assistent, der dabei hilft, eine kontinuierliche, sich entwickelnde Zusammenfassung auf Deutsch zu erstellen.\n" ++
  "Dir werden eine \"Bestehende Zusammenfassung\" (die leer sein kann, wenn dies der erste Gedanke ist) und ein \"Neu diktierter Gedanke\" gegeben.\n" ++
  "Deine Aufgabe ist es, den \"Neu diktierten Gedanke\" intelligent in die \"Bestehende Zusammenfassung\" zu integrieren.\n" ++
  "Dies ist nicht nur ein einfaches Anhängen. Du solltest:\n" ++
  "1. Den Kontext der \"Bestehenden Zusammenfassung\" verstehen.\n" ++
  "2. Den \"Neu diktierten Gedanke\" verstehen.\n" ++
  "3. Die kombinierten Informationen überarbeiten, neu anordnen, zusammenführen oder zusammenfassen, um eine neue, kohärente \"Aktualisierte Zusammenfassung\" zu erstellen.\n" ++
  "4. Wenn der neue Gedanke eine direkte Fortsetzung ist, erweitere die Erzählung.\n" ++
  "5. Wenn der neue Gedanke ein neues Thema einführt, organisiere es logisch innerhalb der Zusammenfassung.\n" ++
  "6. Wenn der neue Gedanke einen vorherigen Punkt überarbeitet oder verdeutlicht, aktualisiere die Zusammenfassung entsprechend.\n" ++
  "7. Einen konsistenten Ton und Stil beibehalten.\n" ++
  "8. Sicherstellen, dass die Ausgabe gut strukturiert und lesbar ist.\n" ++
  "9. Die \"Aktualisierte Zusammenfassung\" im Markdown-Format und auf Deutsch ausgeben.\n" ++
  "\nBestehende Zusammenfassung:\n"

/-- The summarize request text (`summaryPrompt` template of src/index.tsx
lines 741-761); an empty running summary is replaced by the sentinel via
`this.currentSummary || "Noch keine vorherige Zusammenfassung."`. -/
def summaryPrompt (cur newMd : String) : String :=
  summaryPromptPrefix ++
  (if cur = "" then "Noch keine vorherige Zusammenfassung." else cur) ++
  "\n\nNeu diktierter Gedanke (Markdown):\n" ++ newMd ++
  "\n\nAktualisierte Zusammenfassung (Markdown, Deutsch):"

/-- Placeholder HTML stored when there is no transcription to polish
(src/index.tsx line 663). -/
def noTranscriptHtml : String :=
  "<p><em>Keine Transkription zum Überarbeiten verfügbar.</em></p>"

/-- Placeholder HTML stored when the polish stage returns an empty result
(src/index.tsx line 715). -/
def emptyPolishHtml : String :=
  "<p><em>Überarbeitung lieferte leeres Ergebnis. Roh-Transkript ist verfügbar.</em></p>"

/-- HTML stored when the polish stage throws (src/index.tsx line 725). -/
def polishErrorHtml (msg : String) : String :=
  "<p><em>Fehler während der Überarbeitung: " ++ msg ++ "</em></p>"

/-- Marker inserted before the appended thought when the summarize stage
returns an empty result (src/index.tsx line 784). -/
def summaryFailSep : String :=
  "\n\n---\n\n**Neuer Gedanke (Integration fehlgeschlagen):**\n"

/-- Marker inserted before the appended thought when the summarize stage
throws (src/index.tsx line 791). -/
def summaryErrSepPre : String :=
  "\n\n---\n\n**Neuer Gedanke (Fehler während der Aktualisierung der Zusammenfassung: "

/-- Closing part of the thrown-summarize marker. -/
def summaryErrSepPost : String := "):**\n"

/-- `updateSummary` of src/index.tsx lines 735-796, restricted to the session
state it touches. Token estimation happens after the awaited call, so a
thrown call adds no tokens; an empty result appends the new thought to the
existing summary behind a failure marker instead of replacing it. -/
def updateSummary (ora : Oracle) (newMd : String) (st : AppState) : AppState :=
  match ora.summarizeResult with
  | CallResult.err m =>
    { st with currentSummary :=
        st.currentSummary ++ summaryErrSepPre ++ m ++ summaryErrSepPost ++ newMd }
  | CallResult.ok u =>
    let st1 := addTokenUsage (estimateTokens (summaryPrompt st.currentSummary newMd))
      (estimateTokens u) st
    if u = "" then
      { st1 with currentSummary := st1.currentSummary ++ summaryFailSep ++ newMd }
    else
      { st1 with currentSummary := u }

/-- Result of a pipeline run: the final state plus whether the polish and
summarize service calls were issued at all. -/
structure RunResult where
  state : AppState
  polishCalled : Bool
  summarizeCalled : Bool
deriving DecidableEq

/-- `getPolishedNote` of src/index.tsx lines 653-733. A blank transcription
short-circuits before the service call; an empty polish result stores empty
markdown with a placeholder HTML and does not invoke `updateSummary`; only a
non-empty result renders HTML via `marked.parse` and proceeds to stage 3. -/
def getPolishedNote (ora : Oracle) (raw : String) (st : AppState) : RunResult :=
  if raw = "" ∨ jsTrimEmpty raw = true then
    { state := setNotePolished "" noTranscriptHtml st,
      polishCalled := false, summarizeCalled := false }
  else
    match ora.polishResult with
    | CallResult.err m =>
      { state := setNotePolished "" (polishErrorHtml m) st,
        polishCalled := true, summarizeCalled := false }
    | CallResult.ok md =>
      let st1 := addTokenUsage (estimateTokens (polishPrompt raw)) (estimateTokens md) st
      if md = "" then
        { state := setNotePolished "" emptyPolishHtml st1,
          polishCalled := true, summarizeCalled := false }
      else
        let st2 := setNotePolished md (ora.markedParse md) st1
        { state := updateSummary ora md st2,
          polishCalled := true, summarizeCalled := true }

/-- `getTranscription` of src/index.tsx lines 605-651, the entry of the
enrichment pipeline. Tokens are accounted before the emptiness test; an empty
transcription only touches the display panels, leaving the current note's
fields unchanged and never invoking the later stages. -/
def getTranscription (ora : Oracle) (st : AppState) : RunResult :=
  match ora.transcribeResult with
  | CallResult.err _ =>
    { state := st, polishCalled := false, summarizeCalled := false }
  | CallResult.ok t =>
    let st1 := addTokenUsage (estimateTokens transcribeInstruction) (estimateTokens t) st
    if t = "" then
      { state := st1, polishCalled := false, summarizeCalled := false }
    else
      getPolishedNote ora t (setNoteRaw t st1)

/-- JavaScript `Array.prototype.findIndex` specialised to notes: index of the
first element satisfying the predicate. -/
def findIndex (p : Note → Bool) : List Note → Option Nat
  | [] => none
  | x :: xs => if p x then some 0 else (findIndex p xs).map (· + 1)

/-- JavaScript `Array.prototype.find` specialised to notes. -/
def findNote (p : Note → Bool) : List Note → Option Note
  | [] => none
  | x :: xs => if p x then some x else findNote p xs

/-- The history transformation of `saveNoteToHistory` (src/index.tsx lines
855-864): replace in place when the id already occurs, otherwise `unshift`,
then `slice(0, 50)`. -/
def upsertHistory (note : Note) (history : List Note) : List Note :=
  (match findIndex (fun h => h.id == note.id) history with
   | some i => history.set i note
   | none => note :: history).take 50

/-- The stamping of `note.summary` and `note.totalTokens` from the live
session state at the top of `saveNoteToHistory` (lines 852-853). -/
def stampNote (st : AppState) (n : Note) : Note :=
  { n with summary := st.currentSummary, totalTokens := st.currentSessionTokens }

/-- `saveNoteToHistory` of src/index.tsx lines 848-868. -/
def saveNoteToHistory (note : Note) (st : AppState) : AppState :=
  { st with history := upsertHistory (stampNote st note) st.history }

/-- JavaScript truthiness test `note.rawTranscription || note.polishedNoteMarkdown`
used by the commit-if-dirty steps (lines 801 and 958). -/
def noteDirty (n : Note) : Bool :=
  !(n.rawTranscription == "") || !(n.polishedNoteMarkdown == "")

/-- The fresh note allocated by `createNewNote` (lines 805-814); its id and
timestamp both come from `Date.now()`. -/
def freshNote (ts : Nat) : Note :=
  { id := "note_" ++ toString ts, title := "", rawTranscription := "",
    polishedNoteMarkdown := "", polishedNoteHtml := "", summary := "",
    timestamp := ts, totalTokens := 0 }

/-- `createNewNote` of src/index.tsx lines 799-845 (the recording shutdown
and panel clearing are view glue): commit the outgoing note when dirty, then
reset session state around a fresh note. -/
def createNewNote (ts : Nat) (st : AppState) : AppState :=
  let st1 := match st.currentNote with
    | some n => if noteDirty n then saveNoteToHistory n st else st
    | none => st
  { st1 with currentNote := some (freshNote ts), currentSummary := "",
             currentSessionTokens := 0 }

/-- `loadNoteFromHistory` of src/index.tsx lines 951-988 (panel updates and
the editor-title preservation are view glue): commit-if-dirty, then replace
the current note by a copy of the stored one, restoring summary and tokens. -/
def loadNoteFromHistory (noteId : String) (st : AppState) : AppState :=
  match findNote (fun h => h.id == noteId) st.history with
  | none => st
  | some note =>
    let st1 := match st.currentNote with
      | some n => if noteDirty n then saveNoteToHistory n st else st
      | none => st
    { st1 with currentNote := some note, currentSummary := note.summary,
               currentSessionTokens := note.totalTokens }

/-- `updateNoteTitle` of src/index.tsx lines 1095-1103. -/
def updateNoteTitle (noteId title : String) (st : AppState) : AppState :=
  match findIndex (fun h => h.id == noteId) st.history with
  | none => st
  | some i =>
    match st.history.get? i with
    | none => st
    | some n => { st with history := st.history.set i { n with title := title } }

/-- `deleteNote` of src/index.tsx lines 1105-1129, on the confirmed path:
splice the entry out, then fall back to `createNewNote` when the deleted id
is the current note's. -/
def deleteNote (noteId : String) (ts : Nat) (st : AppState) : AppState :=
  match findIndex (fun h => h.id == noteId) st.history with
  | none => st
  | some i =>
    let st1 := { st with history := st.history.eraseIdx i }
    if (match st1.currentNote with | some n => n.id == noteId | none => false) then
      createNewNote ts st1
    else
      st1

/-- The note count that the status message of src/index.tsx line 1128
reports as remaining after a confirmed deletion: the length of the locally
spliced array, not of the stored history. -/
def deleteNoteReportedRemaining (noteId : String) (st : AppState) : Option Nat :=
  match findIndex (fun h => h.id == noteId) st.history with
  | none => none
  | some i => some (st.history.eraseIdx i).length

/-- One session-level operation of the core. -/
inductive SessionOp where
  | run (ora : Oracle)
  | newNote (ts : Nat)
  | load (noteId : String)
  | del (noteId : String) (ts : Nat)
  | editTitle (noteId : String) (title : String)

/-- Apply a session-level operation to the state. -/
def applyOp : SessionOp → AppState → AppState
  | SessionOp.run ora, st => (getTranscription ora st).state
  | SessionOp.newNote ts, st => createNewNote ts st
  | SessionOp.load i, st => loadNoteFromHistory i st
  | SessionOp.del i ts, st => deleteNote i ts st
  | SessionOp.editTitle i t, st => updateNoteTitle i t st

/-- For a pipeline operation, the markdown renderer is assumed to return
non-empty HTML on non-empty markdown (what `marked.parse` does). -/
def opRenderOk : SessionOp → Prop
  | SessionOp.run ora => ∀ s, s ≠ "" → ora.markedParse s ≠ ""
  | _ => True

/-- One direction of the spec's polished-fields invariant: non-empty markdown
comes with non-empty HTML. -/
def noteInv (n : Note) : Prop :=
  n.polishedNoteMarkdown ≠ "" → n.polishedNoteHtml ≠ ""

/-- `noteInv` for the current note and every history entry. -/
def stateInv (st : AppState) : Prop :=
  (match st.currentNote with | some n => noteInv n | none => True) ∧
  ∀ n ∈ st.history, noteInv n

/-- The request and response texts, in order, of the service calls of one
pipeline run that resolved (a thrown call adds no tokens and ends the run). -/
def runTexts (ora : Oracle) (st : AppState) : List String :=
  match ora.transcribeResult with
  | CallResult.err _ => []
  | CallResult.ok t =>
    [transcribeInstruction, t] ++
    (if t = "" ∨ jsTrimEmpty t = true then [] else
      match ora.polishResult with
      | CallResult.err _ => []
      | CallResult.ok md =>
        [polishPrompt t, md] ++
        (if md = "" then [] else
          match ora.summarizeResult with
          | CallResult.err _ => []
          | CallResult.ok u => [summaryPrompt st.currentSummary md, u]))

/-- Initial session state: the fresh note allocated by the first
`createNewNote` and an empty history. -/
def st0 : AppState :=
  { currentNote := some (freshNote 0), currentSummary := "",
    currentSessionTokens := 0, history := [] }

/-- Oracle of a run whose polish stage resolves with an empty result. -/
def oraEmptyPolish : Oracle :=
  { transcribeResult := CallResult.ok "Hallo Welt",
    polishResult := CallResult.ok "",
    summarizeResult := CallResult.ok "Fazit",
    markedParse := fun s => "<p>" ++ s ++ "</p>" }

/-- Oracle of a fully successful run whose summarize response begins with a
newline. -/
def oraLeadingWsSummary : Oracle :=
  { transcribeResult := CallResult.ok "Hallo Welt",
    polishResult := CallResult.ok "OK",
    summarizeResult := CallResult.ok "\nFazit",
    markedParse := fun s => "<p>" ++ s ++ "</p>" }

/-- Oracle of a run whose transcribe stage resolves with an empty string. -/
def oraEmptyTranscribe : Oracle :=
  { transcribeResult := CallResult.ok "",
    polishResult := CallResult.ok "x",
    summarizeResult := CallResult.ok "y",
    markedParse := fun s => "<p>" ++ s ++ "</p>" }

/-- A dirty note sitting in history and open as the current note. -/
def dirtyNote : Note :=
  { id := "note_1", title := "", rawTranscription := "Hallo",
    polishedNoteMarkdown := "", polishedNoteHtml := "", summary := "",
    timestamp := 1, totalTokens := 0 }

/-- State in which `dirtyNote` is both the single history entry and the
current note. -/
def stDirtyCurrent : AppState :=
  { currentNote := some dirtyNote, currentSummary := "",
    currentSessionTokens := 0, history := [dirtyNote] }

/-- The whitespace split never produces an empty field list (JavaScript's
`split` returns at least one field). -/
theorem jsSplitWs_length_pos : ∀ l : List Char, 1 ≤ (jsSplitWs l).length
  | [] => by simp [jsSplitWs]
  | [c] => by by_cases h : wsChar c <;> simp [jsSplitWs, h]
  | c :: c2 :: rest => by
    have ih := jsSplitWs_length_pos (c2 :: rest)
    rw [jsSplitWs.eq_3]
    by_cases h : wsChar c
    · rw [if_pos h]
      by_cases h2 : wsChar c2
      · rw [if_pos h2]; exact ih
      · rw [if_neg h2]; simp
    · rw [if_neg h]
      cases hr : jsSplitWs (c2 :: rest) with
      | nil => simp
      | cons f fs => simp

/-- Every token estimate is at least 2. -/
theorem estimateTokens_two_le (s : String) : 2 ≤ estimateTokens s := by
  unfold estimateTokens
  have h := jsSplitWs_length_pos s.data
  rw [Nat.le_div_iff_mul_le (by norm_num)]
  omega

/-- `findIndex` misses when no element satisfies the predicate. -/
theorem findIndex_eq_none (p : Note → Bool) :
    ∀ l : List Note, (∀ x ∈ l, p x = false) → findIndex p l = none := by
  intro l
  induction l with
  | nil => intro _; rfl
  | cons x xs ih =>
    intro h
    have hx := h x (by simp)
    simp [findIndex, hx]
    exact ih fun y hy => h y (by simp [hy])

/-- A hit of `findIndex` points at an element satisfying the predicate. -/
theorem findIndex_getElem? (p : Note → Bool) :
    ∀ (l : List Note) (i : Nat), findIndex p l = some i →
      ∃ a, l[i]? = some a ∧ p a = true := by
  intro l
  induction l with
  | nil => intro i h; simp [findIndex] at h
  | cons x xs ih =>
    intro i h
    by_cases hp : p x
    · simp [findIndex, hp] at h
      exact h ▸ ⟨x, by simp, hp⟩
    · simp [findIndex, hp] at h
      obtain ⟨j, hj, hji⟩ := h
      obtain ⟨a, ha, hpa⟩ := ih j hj
      exact ⟨a, by simpa [← hji] using ha, hpa⟩

/-- Setting an index to the value it already holds changes nothing. -/
theorem set_of_getElem?_eq {α : Type _} :
    ∀ (l : List α) (i : Nat) (a : α), l[i]? = some a → l.set i a = l
  | [], i, a, h => by simp at h
  | x :: xs, 0, a, h => by
    simp at h
    simp [h]
  | x :: xs, i + 1, a, h => by
    simp at h
    simp [set_of_getElem?_eq xs i a h]

/-- One upsert leaves at most 50 entries, whatever the starting state. -/
theorem upsertHistory_length_le (note : Note) (history : List Note) :
    (upsertHistory note history).length ≤ 50 := by
  unfold upsertHistory
  exact List.length_take_le 50 _

/-- Any sequence of upserts keeps the history capped at 50. -/
theorem upsertHistory_foldl_le (notes : List Note) :
    ∀ history : List Note, history.length ≤ 50 →
      (notes.foldl (fun h n => upsertHistory n h) history).length ≤ 50 := by
  induction notes with
  | nil => intro h hh; simpa using hh
  | cons a as ih => intro h hh; simpa [List.foldl] using ih _ (upsertHistory_length_le a h)

/-- C4: starting from any history of length at most 50, upsert keeps the list
capped at 50 across any sequence of upserts; a note with a fresh id is
prepended (most-recent-first), and inserting a 51st distinct id evicts
exactly the oldest (last) entry and no other. -/
theorem c4_history_cap_and_eviction (history : List Note) (note : Note)
    (hlen : history.length ≤ 50) :
    (upsertHistory note history).length ≤ 50 ∧
    (∀ notes : List Note,
      (notes.foldl (fun h n => upsertHistory n h) history).length ≤ 50) ∧
    (note.id ∉ history.map (fun h => h.id) →
      upsertHistory note history = (note :: history).take 50) ∧
    (note.id ∉ history.map (fun h => h.id) → history.length = 50 →
      upsertHistory note history = note :: history.take 49) := by
  have hnone : note.id ∉ history.map (fun h => h.id) →
      findIndex (fun h => h.id == note.id) history = none := by
    intro hid
    apply findIndex_eq_none
    intro x hx
    have hne : x.id ≠ note.id := fun e => hid (e ▸ List.mem_map_of_mem _ hx)
    simpa using hne
  refine ⟨upsertHistory_length_le note history,
    fun notes => upsertHistory_foldl_le notes history hlen, ?_, ?_⟩
  · intro hid
    unfold upsertHistory
    rw [hnone hid]
  · intro hid h50
    unfold upsertHistory
    rw [hnone hid]
    show (note :: history).take 50 = note :: history.take 49
    rw [List.take_succ_cons]

/-- C4 witness: upsert of a fresh note into the empty history. -/
theorem c4_history_cap_and_eviction_witness :
    ([] : List Note).length ≤ 50 ∧
    ((upsertHistory dirtyNote []).length ≤ 50 ∧
    (∀ notes : List Note,
      (notes.foldl (fun h n => upsertHistory n h) []).length ≤ 50) ∧
    (dirtyNote.id ∉ ([] : List Note).map (fun h => h.id) →
      upsertHistory dirtyNote [] = ([dirtyNote] : List Note).take 50) ∧
    (dirtyNote.id ∉ ([] : List Note).map (fun h => h.id) →
      ([] : List Note).length = 50 →
      upsertHistory dirtyNote [] = dirtyNote :: ([] : List Note).take 49)) :=
  ⟨by decide, c4_history_cap_and_eviction [] dirtyNote (by decide)⟩

/-- C5: saving a note whose id already occurs replaces that entry in place:
same length, same ids in the same order, and the stored list is the old one
with the stamped note substituted at the found index. -/
theorem c5_upsert_replace_in_place (st : AppState) (note : Note) (i : Nat)
    (hlen : st.history.length ≤ 50)
    (hfind : findIndex (fun h => h.id == note.id) st.history = some i) :
    (saveNoteToHistory note st).history.length = st.history.length ∧
    (saveNoteToHistory note st).history.map (fun h => h.id) =
      st.history.map (fun h => h.id) ∧
    (saveNoteToHistory note st).history = st.history.set i (stampNote st note) := by
  obtain ⟨a, ha, hpa⟩ := findIndex_getElem? _ _ _ hfind
  have haid : a.id = note.id := eq_of_beq hpa
  have hset : (saveNoteToHistory note st).history = st.history.set i (stampNote st note) := by
    show (upsertHistory (stampNote st note) st.history) = _
    unfold upsertHistory
    rw [show findIndex (fun h => h.id == (stampNote st note).id) st.history = some i
        from hfind]
    exact List.take_of_length_le (by simpa [List.length_set] using hlen)
  refine ⟨?_, ?_, hset⟩
  · rw [hset, List.length_set]
  · rw [hset, List.map_set]
    apply set_of_getElem?_eq
    rw [List.getElem?_map, ha]
    simp [stampNote, haid]

/-- C5 witness: re-saving the already-stored note. -/
theorem c5_upsert_replace_in_place_witness :
    stDirtyCurrent.history.length ≤ 50 ∧
    findIndex (fun h => h.id == dirtyNote.id) stDirtyCurrent.history = some 0 ∧
    ((saveNoteToHistory dirtyNote stDirtyCurrent).history.length =
      stDirtyCurrent.history.length ∧
    (saveNoteToHistory dirtyNote stDirtyCurrent).history.map (fun h => h.id) =
      stDirtyCurrent.history.map (fun h => h.id) ∧
    (saveNoteToHistory dirtyNote stDirtyCurrent).history =
      stDirtyCurrent.history.set 0 (stampNote stDirtyCurrent dirtyNote)) :=
  ⟨by decide, by decide,
    c5_upsert_replace_in_place stDirtyCurrent dirtyNote 0 (by decide) (by decide)⟩

/-- C7: when the summarize stage resolves empty or throws, the resulting
summary is the old summary, a failure marker, and the new thought appended:
both the old summary and the new markdown survive verbatim as substrings. -/
theorem c7_summarize_failure_keeps_content (ora : Oracle) (st : AppState) (A B : String)
    (hA : st.currentSummary = A)
    (hfail : ora.summarizeResult = CallResult.ok "" ∨
      ∃ m, ora.summarizeResult = CallResult.err m) :
    ∃ mid, (updateSummary ora B st).currentSummary = A ++ mid ++ B := by
  rcases hfail with h | ⟨m, h⟩
  · refine ⟨summaryFailSep, ?_⟩
    unfold updateSummary
    rw [h]
    simp [addTokenUsage, hA]
  · refine ⟨summaryErrSepPre ++ m ++ summaryErrSepPost, ?_⟩
    unfold updateSummary
    rw [h, hA]
    simp [String.append_assoc]

/-- C7 witness: an empty summarize result over summary "A" and thought "B". -/
theorem c7_summarize_failure_keeps_content_witness :
    ({ st0 with currentSummary := "A" } : AppState).currentSummary = "A" ∧
    (({ oraEmptyPolish with summarizeResult := CallResult.ok "" } : Oracle).summarizeResult =
        CallResult.ok "" ∨
      ∃ m, ({ oraEmptyPolish with
        summarizeResult := CallResult.ok "" } : Oracle).summarizeResult =
        CallResult.err m) ∧
    ∃ mid,
      (updateSummary { oraEmptyPolish with summarizeResult := CallResult.ok "" } "B"
        { st0 with currentSummary := "A" }).currentSummary = "A" ++ mid ++ "B" :=
  ⟨rfl, Or.inl rfl,
    c7_summarize_failure_keeps_content
      { oraEmptyPolish with summarizeResult := CallResult.ok "" }
      { st0 with currentSummary := "A" } "A" "B" rfl (Or.inl rfl)⟩

/-- C2 (code bug): deleting the current note while it holds content removes it
from storage, but the `createNewNote` fallback immediately re-commits it via
the commit-if-dirty step: the stored history still contains the deleted id,
while the status message computes its count from the locally spliced array and
reports one fewer note than is actually stored. -/
theorem c2_delete_current_dirty_note_resurrects :
    (deleteNote "note_1" 2 stDirtyCurrent).history.map (fun n => n.id) = ["note_1"] ∧
    deleteNoteReportedRemaining "note_1" stDirtyCurrent = some 0 ∧
    (deleteNote "note_1" 2 stDirtyCurrent).history.length = 1 := by decide

set_option maxRecDepth 100000 in
/-- C1 counterexample: after a polish stage that resolves with an empty
result, the current note holds an empty `polishedNoteMarkdown` together with
a non-empty placeholder `polishedNoteHtml` — one field without the other,
refuting the both-empty-or-both-non-empty invariant. -/
theorem c1_counterexample :
    ((getTranscription oraEmptyPolish st0).state.currentNote.map
      (fun n => (n.polishedNoteMarkdown, n.polishedNoteHtml))) =
      some ("", emptyPolishHtml) ∧
    emptyPolishHtml ≠ "" := by
  constructor
  · decide
  · decide

set_option maxRecDepth 100000 in
/-- C3 counterexample: on an empty polish result after a non-empty
transcription, the polish service was called but the summarize stage is never
invoked, refuting the claim that stage 3 still runs. -/
theorem c3_counterexample :
    (getTranscription oraEmptyPolish st0).polishCalled = true ∧
    (getTranscription oraEmptyPolish st0).summarizeCalled = false := by
  constructor
  · decide
  · decide

set_option maxRecDepth 1000000 in
/-- C8 counterexample: a fully successful three-stage run whose summarize
response begins with a newline. The code's token counter reaches 426, while
the sum of ceil(word_count / 0.75) over the six request and response texts —
with word_count the number of whitespace-separated words — is 425, because
the leading newline adds an empty split field that is not a word. -/
theorem c8_counterexample :
    ((getTranscription oraLeadingWsSummary st0).state.currentNote.map
      (fun n => n.totalTokens)) = some 426 ∧
    ((runTexts oraLeadingWsSummary st0).map specTokenEstimate).sum = 425 := by
  constructor
  · decide
  · decide

/-- `createNewNote` does not touch the history when the outgoing current note
is clean. -/
theorem createNewNote_history_of_clean (ts : Nat) (st : AppState) (n : Note)
    (h1 : st.currentNote = some n) (h2 : noteDirty n = false) :
    (createNewNote ts st).history = st.history := by
  unfold createNewNote
  rw [h1]
  dsimp only
  rw [h2]
  rfl

/-- C9: `createNewNote` commits the outgoing note exactly when it has a
non-empty transcription or non-empty polished markdown; a second consecutive
`createNewNote` never commits the untouched fresh note, so the history is
unchanged. -/
theorem c9_create_new_note_commit_iff (st : AppState) (n : Note) (ts ts2 : Nat)
    (h1 : st.currentNote = some n) :
    (n.rawTranscription = "" ∧ n.polishedNoteMarkdown = "" →
      (createNewNote ts st).history = st.history) ∧
    ((n.rawTranscription ≠ "" ∨ n.polishedNoteMarkdown ≠ "") →
      (createNewNote ts st).history = upsertHistory (stampNote st n) st.history) ∧
    (createNewNote ts2 (createNewNote ts st)).history = (createNewNote ts st).history := by
  refine ⟨?_, ?_, ?_⟩
  · rintro ⟨hr, hm⟩
    exact createNewNote_history_of_clean ts st n h1 (by simp [noteDirty, hr, hm])
  · intro hd
    have hdirty : noteDirty n = true := by
      rcases hd with h | h <;> simp [noteDirty, h]
    unfold createNewNote
    rw [h1]
    dsimp only
    rw [hdirty]
    rfl
  · exact createNewNote_history_of_clean ts2 (createNewNote ts st) (freshNote ts) rfl
      (by simp [noteDirty, freshNote])

/-- C9 witness: a dirty outgoing note is committed; the follow-up fresh note
is not. -/
theorem c9_create_new_note_commit_iff_witness :
    stDirtyCurrent.currentNote = some dirtyNote ∧
    ((dirtyNote.rawTranscription = "" ∧ dirtyNote.polishedNoteMarkdown = "" →
      (createNewNote 5 stDirtyCurrent).history = stDirtyCurrent.history) ∧
    ((dirtyNote.rawTranscription ≠ "" ∨ dirtyNote.polishedNoteMarkdown ≠ "") →
      (createNewNote 5 stDirtyCurrent).history =
        upsertHistory (stampNote stDirtyCurrent dirtyNote) stDirtyCurrent.history) ∧
    (createNewNote 6 (createNewNote 5 stDirtyCurrent)).history =
      (createNewNote 5 stDirtyCurrent).history) :=
  ⟨rfl, c9_create_new_note_commit_iff stDirtyCurrent dirtyNote 5 6 rfl⟩

/-- C6: an empty transcribe result leaves the current note's transcription and
polished markdown empty and invokes neither the polish nor the summarize
stage. -/
theorem c6_empty_transcription_short_circuits (ora : Oracle) (st : AppState) (n : Note)
    (h1 : st.currentNote = some n) (h2 : n.rawTranscription = "")
    (h3 : n.polishedNoteMarkdown = "") (h4 : ora.transcribeResult = CallResult.ok "") :
    (∃ n', (getTranscription ora st).state.currentNote = some n' ∧
      n'.rawTranscription = "" ∧ n'.polishedNoteMarkdown = "") ∧
    (getTranscription ora st).polishCalled = false ∧
    (getTranscription ora st).summarizeCalled = false := by
  unfold getTranscription
  rw [h4]
  dsimp only
  rw [if_pos rfl]
  refine ⟨?_, rfl, rfl⟩
  simp only [addTokenUsage, h1, Option.map_some']
  exact ⟨_, rfl, h2, h3⟩

/-- C6 witness: the fresh initial note with an empty transcribe result. -/
theorem c6_empty_transcription_short_circuits_witness :
    st0.currentNote = some (freshNote 0) ∧
    (freshNote 0).rawTranscription = "" ∧
    (freshNote 0).polishedNoteMarkdown = "" ∧
    oraEmptyTranscribe.transcribeResult = CallResult.ok "" ∧
    ((∃ n', (getTranscription oraEmptyTranscribe st0).state.currentNote = some n' ∧
      n'.rawTranscription = "" ∧ n'.polishedNoteMarkdown = "") ∧
    (getTranscription oraEmptyTranscribe st0).polishCalled = false ∧
    (getTranscription oraEmptyTranscribe st0).summarizeCalled = false) :=
  ⟨rfl, rfl, rfl, rfl,
    c6_empty_transcription_short_circuits oraEmptyTranscribe st0 (freshNote 0)
      rfl rfl rfl rfl⟩

/-- C3 amended: an empty polish result after a non-empty transcription stores
empty markdown with the placeholder HTML, and the summarize stage is not
invoked. -/
theorem c3_amended_empty_polish_skips_summarize (ora : Oracle) (st : AppState)
    (n : Note) (t : String)
    (h1 : st.currentNote = some n) (h2 : ora.transcribeResult = CallResult.ok t)
    (h3 : t ≠ "") (h4 : jsTrimEmpty t = false)
    (h5 : ora.polishResult = CallResult.ok "") :
    (∃ n', (getTranscription ora st).state.currentNote = some n' ∧
      n'.polishedNoteMarkdown = "" ∧ n'.polishedNoteHtml = emptyPolishHtml) ∧
    (getTranscription ora st).summarizeCalled = false := by
  unfold getTranscription
  rw [h2]
  dsimp only
  rw [if_neg h3]
  unfold getPolishedNote
  rw [if_neg (by simp [h3, h4])]
  rw [h5]
  dsimp only
  rw [if_pos rfl]
  refine ⟨?_, rfl⟩
  simp only [setNotePolished, addTokenUsage, setNoteRaw, h1, Option.map_some']
  exact ⟨_, rfl, rfl, rfl⟩

/-- C3 amended witness: the concrete empty-polish run. -/
theorem c3_amended_empty_polish_skips_summarize_witness :
    st0.currentNote = some (freshNote 0) ∧
    oraEmptyPolish.transcribeResult = CallResult.ok "Hallo Welt" ∧
    "Hallo Welt" ≠ "" ∧
    jsTrimEmpty "Hallo Welt" = false ∧
    oraEmptyPolish.polishResult = CallResult.ok "" ∧
    ((∃ n', (getTranscription oraEmptyPolish st0).state.currentNote = some n' ∧
      n'.polishedNoteMarkdown = "" ∧ n'.polishedNoteHtml = emptyPolishHtml) ∧
    (getTranscription oraEmptyPolish st0).summarizeCalled = false) :=
  ⟨rfl, rfl, by decide, by decide, rfl,
    c3_amended_empty_polish_skips_summarize oraEmptyPolish st0 (freshNote 0)
      "Hallo Welt" rfl rfl (by decide) (by decide) rfl⟩

/-- C8 amended: token accounting is strictly additive — starting from a
counter of 0, after a pipeline run the session counter and the current note's
`totalTokens` both equal the sum of `estimateTokens` (the ceiling of
`split_length / 0.75`, where `split_length` counts the fields of the
JavaScript whitespace split, including empty boundary fields) over every
request and response text of the resolved service calls, in order. -/
theorem c8_amended_token_additivity (ora : Oracle) (st : AppState) (n : Note)
    (h1 : st.currentNote = some n) (h2 : st.currentSessionTokens = 0)
    (h3 : n.totalTokens = 0) :
    (getTranscription ora st).state.currentSessionTokens =
      ((runTexts ora st).map estimateTokens).sum ∧
    ∀ n', (getTranscription ora st).state.currentNote = some n' →
      n'.totalTokens = ((runTexts ora st).map estimateTokens).sum := by
  cases htr : ora.transcribeResult with
  | err m =>
    unfold getTranscription runTexts
    rw [htr]
    dsimp only
    refine ⟨h2, ?_⟩
    intro n' hn'
    rw [h1] at hn'
    cases hn'
    simpa using h3
  | ok t =>
    by_cases ht : t = ""
    · subst ht
      unfold getTranscription runTexts
      rw [htr]
      dsimp only
      rw [if_pos rfl, if_pos (Or.inl rfl)]
      constructor
      · simp only [addTokenUsage, List.map_cons, List.map_nil, List.sum_cons,
          List.sum_nil, List.append_nil, h2]
        omega
      · intro n' hn'
        simp only [addTokenUsage, h1, Option.map_some'] at hn'
        cases hn'
        simp only [List.map_cons, List.map_nil, List.sum_cons, List.sum_nil,
          List.append_nil, h2]
        omega
    · have hcond : ¬(t = "" ∨ jsTrimEmpty t = true) ∨ (t = "" ∨ jsTrimEmpty t = true) :=
        (em _).symm
      by_cases htrim : jsTrimEmpty t = true
      · unfold getTranscription runTexts
        rw [htr]
        dsimp only
        rw [if_neg ht]
        unfold getPolishedNote
        rw [if_pos (Or.inr htrim), if_pos (Or.inr htrim)]
        constructor
        · simp only [setNotePolished, setNoteRaw, addTokenUsage, List.map_cons,
            List.map_nil, List.sum_cons, List.sum_nil, List.append_nil, h2]
          omega
        · intro n' hn'
          simp only [setNotePolished, setNoteRaw, addTokenUsage, h1,
            Option.map_some'] at hn'
          cases hn'
          simp only [List.map_cons, List.map_nil, List.sum_cons, List.sum_nil,
            List.append_nil, h2]
          omega
      · have hno : ¬(t = "" ∨ jsTrimEmpty t = true) := by
          rintro (hc | hc)
          · exact ht hc
          · exact htrim hc
        unfold getTranscription runTexts
        rw [htr]
        dsimp only
        rw [if_neg ht]
        unfold getPolishedNote
        rw [if_neg hno, if_neg hno]
        cases hp : ora.polishResult with
        | err m =>
          dsimp only
          constructor
          · simp only [setNotePolished, setNoteRaw, addTokenUsage, List.map_cons,
              List.map_nil, List.sum_cons, List.sum_nil, List.append_nil, h2]
            omega
          · intro n' hn'
            simp only [setNotePolished, setNoteRaw, addTokenUsage, h1,
              Option.map_some'] at hn'
            cases hn'
            simp only [List.map_cons, List.map_nil, List.sum_cons, List.sum_nil,
              List.append_nil, h2]
            omega
        | ok md =>
          by_cases hmd : md = ""
          · subst hmd
            dsimp only
            rw [if_pos rfl, if_pos rfl]
            constructor
            · simp only [setNotePolished, setNoteRaw, addTokenUsage, List.map_cons,
                List.map_nil, List.sum_cons, List.sum_nil, List.map_append,
                List.sum_append, List.append_nil, h2]
              omega
            · intro n' hn'
              simp only [setNotePolished, setNoteRaw, addTokenUsage, h1,
                Option.map_some'] at hn'
              cases hn'
              simp only [List.map_cons, List.map_nil, List.sum_cons, List.sum_nil,
                List.map_append, List.sum_append, List.append_nil, h2]
              omega
          · dsimp only
            rw [if_neg hmd, if_neg hmd]
            cases hs : ora.summarizeResult with
            | err m2 =>
              unfold updateSummary
              rw [hs]
              dsimp only
              constructor
              · simp only [setNotePolished, setNoteRaw, addTokenUsage, List.map_cons,
                  List.map_nil, List.sum_cons, List.sum_nil, List.map_append,
                  List.sum_append, List.append_nil, h2]
                omega
              · intro n' hn'
                simp only [setNotePolished, setNoteRaw, addTokenUsage, h1,
                  Option.map_some'] at hn'
                cases hn'
                simp only [List.map_cons, List.map_nil, List.sum_cons, List.sum_nil,
                  List.map_append, List.sum_append, List.append_nil, h2]
                omega
            | ok u =>
              unfold updateSummary
              rw [hs]
              dsimp only
              by_cases hu : u = ""
              · subst hu
                rw [if_pos rfl]
                constructor
                · simp only [setNotePolished, setNoteRaw, addTokenUsage, List.map_cons,
                    List.map_nil, List.sum_cons, List.sum_nil, List.map_append,
                    List.sum_append, List.append_nil, h2]
                  omega
                · intro n' hn'
                  simp only [setNotePolished, setNoteRaw, addTokenUsage, h1,
                    Option.map_some'] at hn'
                  cases hn'
                  simp only [List.map_cons, List.map_nil, List.sum_cons, List.sum_nil,
                    List.map_append, List.sum_append, List.append_nil, h2]
                  omega
              · rw [if_neg hu]
                constructor
                · simp only [setNotePolished, setNoteRaw, addTokenUsage, List.map_cons,
                    List.map_nil, List.sum_cons, List.sum_nil, List.map_append,
                    List.sum_append, List.append_nil, h2]
                  omega
                · intro n' hn'
                  simp only [setNotePolished, setNoteRaw, addTokenUsage, h1,
                    Option.map_some'] at hn'
                  cases hn'
                  simp only [List.map_cons, List.map_nil, List.sum_cons, List.sum_nil,
                    List.map_append, List.sum_append, List.append_nil, h2]
                  omega

/-- C8 amended witness: the fully successful three-stage run. -/
theorem c8_amended_token_additivity_witness :
    st0.currentNote = some (freshNote 0) ∧ st0.currentSessionTokens = 0 ∧
    (freshNote 0).totalTokens = 0 ∧
    ((getTranscription oraLeadingWsSummary st0).state.currentSessionTokens =
      ((runTexts oraLeadingWsSummary st0).map estimateTokens).sum ∧
    ∀ n', (getTranscription oraLeadingWsSummary st0).state.currentNote = some n' →
      n'.totalTokens = ((runTexts oraLeadingWsSummary st0).map estimateTokens).sum) :=
  ⟨rfl, rfl, rfl,
    c8_amended_token_additivity oraLeadingWsSummary st0 (freshNote 0) rfl rfl rfl⟩

/-- C10: every token estimate is at least 2 — the empty string splits into one
empty field and ceil(1 / 0.75) = 2 — so every completed service call adds a
positive amount to the session counter. -/
theorem c10_estimate_tokens_lower_bound (t : String) (st : AppState) (req resp : String) :
    2 ≤ estimateTokens t ∧ estimateTokens "" = 2 ∧
    st.currentSessionTokens <
      (addTokenUsage (estimateTokens req) (estimateTokens resp) st).currentSessionTokens := by
  refine ⟨estimateTokens_two_le t, by decide, ?_⟩
  have h1 := estimateTokens_two_le req
  simp only [addTokenUsage]
  omega

/-- A hit of `findNote` is a member of the list. -/
theorem findNote_mem (p : Note → Bool) :
    ∀ (l : List Note) (a : Note), findNote p l = some a → a ∈ l := by
  intro l
  induction l with
  | nil => intro a h; simp [findNote] at h
  | cons x xs ih =>
    intro a h
    by_cases hp : p x
    · simp [findNote, hp] at h
      simp [h]
    · simp [findNote, hp] at h
      exact List.mem_cons.mpr (Or.inr (ih a h))

/-- The fresh note satisfies the one-directional polished-fields invariant. -/
theorem noteInv_fresh (ts : Nat) : noteInv (freshNote ts) :=
  fun hm => absurd rfl hm

/-- Stamping summary and tokens does not touch the polished fields. -/
theorem noteInv_stamp (st : AppState) (n : Note) (h : noteInv n) :
    noteInv (stampNote st n) := h

/-- The invariant of the current note, extracted from the state invariant. -/
theorem stateInv_current (st : AppState) (h : stateInv st) (n : Note)
    (hn : st.currentNote = some n) : noteInv n := by
  have h1 := h.1
  rw [hn] at h1
  exact h1

/-- Upsert preserves the invariant of all history members. -/
theorem histInv_upsert (note : Note) (history : List Note) (hn : noteInv note)
    (hh : ∀ x ∈ history, noteInv x) :
    ∀ x ∈ upsertHistory note history, noteInv x := by
  intro x hx
  unfold upsertHistory at hx
  have hx' := List.mem_of_mem_take hx
  cases hfi : findIndex (fun h => h.id == note.id) history with
  | some i =>
    rw [hfi] at hx'
    rcases List.mem_or_eq_of_mem_set hx' with hm | hm
    · exact hh x hm
    · exact hm ▸ hn
  | none =>
    rw [hfi] at hx'
    rcases List.mem_cons.mp hx' with hm | hm
    · exact hm ▸ hn
    · exact hh x hm

/-- `saveNoteToHistory` preserves the state invariant when the saved note
satisfies it. -/
theorem stateInv_save (st : AppState) (note : Note) (h : stateInv st)
    (hn : noteInv note) : stateInv (saveNoteToHistory note st) := by
  refine ⟨h.1, ?_⟩
  intro x hx
  exact histInv_upsert _ _ (noteInv_stamp st note hn) h.2 x hx

/-- `addTokenUsage` preserves the state invariant. -/
theorem stateInv_addTok (i o : Nat) (st : AppState) (h : stateInv st) :
    stateInv (addTokenUsage i o st) := by
  refine ⟨?_, h.2⟩
  cases hc : st.currentNote with
  | none => simp [addTokenUsage, hc]
  | some n =>
    have h1 := h.1
    rw [hc] at h1
    simp only [addTokenUsage, hc, Option.map_some']
    exact h1

/-- Setting the raw transcription preserves the state invariant. -/
theorem stateInv_setNoteRaw (t : String) (st : AppState) (h : stateInv st) :
    stateInv (setNoteRaw t st) := by
  refine ⟨?_, h.2⟩
  cases hc : st.currentNote with
  | none => simp [setNoteRaw, hc]
  | some n =>
    have h1 := h.1
    rw [hc] at h1
    simp only [setNoteRaw, hc, Option.map_some']
    exact h1

/-- Writing both polished fields preserves the state invariant whenever the
written pair itself satisfies the one-directional invariant. -/
theorem stateInv_setNotePolished (md html : String) (st : AppState)
    (hmh : md ≠ "" → html ≠ "") (h : stateInv st) :
    stateInv (setNotePolished md html st) := by
  refine ⟨?_, h.2⟩
  cases hc : st.currentNote with
  | none => simp [setNotePolished, hc]
  | some n =>
    simp only [setNotePolished, hc, Option.map_some']
    exact hmh

/-- Replacing the running summary preserves the state invariant. -/
theorem stateInv_setSummary (s : String) (st : AppState) (h : stateInv st) :
    stateInv { st with currentSummary := s } :=
  ⟨h.1, h.2⟩

/-- `updateSummary` preserves the state invariant. -/
theorem stateInv_updateSummary (ora : Oracle) (newMd : String) (st : AppState)
    (h : stateInv st) : stateInv (updateSummary ora newMd st) := by
  unfold updateSummary
  cases hs : ora.summarizeResult with
  | err m => exact ⟨h.1, h.2⟩
  | ok u =>
    dsimp only
    have hadd := stateInv_addTok
      (estimateTokens (summaryPrompt st.currentSummary newMd)) (estimateTokens u) st h
    by_cases hu : u = ""
    · rw [if_pos hu]
      exact ⟨hadd.1, hadd.2⟩
    · rw [if_neg hu]
      exact ⟨hadd.1, hadd.2⟩

/-- The polish stage preserves the state invariant, assuming the markdown
renderer returns non-empty HTML on non-empty markdown. -/
theorem stateInv_getPolishedNote (ora : Oracle) (raw : String) (st : AppState)
    (hrender : ∀ s, s ≠ "" → ora.markedParse s ≠ "")
    (h : stateInv st) : stateInv (getPolishedNote ora raw st).state := by
  unfold getPolishedNote
  by_cases hc : raw = "" ∨ jsTrimEmpty raw = true
  · rw [if_pos hc]
    exact stateInv_setNotePolished _ _ _ (fun hm => absurd rfl hm) h
  · rw [if_neg hc]
    cases hp : ora.polishResult with
    | err m =>
      dsimp only
      exact stateInv_setNotePolished _ _ _ (fun hm => absurd rfl hm) h
    | ok md =>
      dsimp only
      by_cases hmd : md = ""
      · rw [if_pos hmd]
        exact stateInv_setNotePolished _ _ _ (fun hm => absurd rfl hm)
          (stateInv_addTok _ _ _ h)
      · rw [if_neg hmd]
        exact stateInv_updateSummary ora md _
          (stateInv_setNotePolished _ _ _ (fun _ => hrender md hmd)
            (stateInv_addTok _ _ _ h))

/-- The whole pipeline run preserves the state invariant. -/
theorem stateInv_getTranscription (ora : Oracle) (st : AppState)
    (hrender : ∀ s, s ≠ "" → ora.markedParse s ≠ "")
    (h : stateInv st) : stateInv (getTranscription ora st).state := by
  unfold getTranscription
  cases htr : ora.transcribeResult with
  | err m => exact h
  | ok t =>
    dsimp only
    by_cases ht : t = ""
    · rw [if_pos ht]
      exact stateInv_addTok _ _ _ h
    · rw [if_neg ht]
      exact stateInv_getPolishedNote ora t _ hrender
        (stateInv_setNoteRaw _ _ (stateInv_addTok _ _ _ h))

/-- The commit-if-dirty step shared by `createNewNote` and
`loadNoteFromHistory` preserves the state invariant. -/
theorem stateInv_commitStep (st : AppState) (h : stateInv st) :
    stateInv (match st.currentNote with
      | some n => if noteDirty n then saveNoteToHistory n st else st
      | none => st) := by
  cases hc : st.currentNote with
  | none => exact h
  | some n =>
    dsimp only
    by_cases hd : noteDirty n
    · rw [if_pos hd]
      exact stateInv_save st n h (stateInv_current st h n hc)
    · rw [if_neg hd]
      exact h

/-- `createNewNote` preserves the state invariant. -/
theorem stateInv_createNewNote (ts : Nat) (st : AppState) (h : stateInv st) :
    stateInv (createNewNote ts st) := by
  unfold createNewNote
  exact ⟨noteInv_fresh ts, fun x hx => (stateInv_commitStep st h).2 x hx⟩

/-- `loadNoteFromHistory` preserves the state invariant. -/
theorem stateInv_load (i : String) (st : AppState) (h : stateInv st) :
    stateInv (loadNoteFromHistory i st) := by
  unfold loadNoteFromHistory
  cases hf : findNote (fun h => h.id == i) st.history with
  | none => exact h
  | some note =>
    dsimp only
    have hinv : noteInv note := h.2 note (findNote_mem _ _ _ hf)
    exact ⟨hinv, fun x hx => (stateInv_commitStep st h).2 x hx⟩

/-- `deleteNote` preserves the state invariant. -/
theorem stateInv_delete (i : String) (ts : Nat) (st : AppState) (h : stateInv st) :
    stateInv (deleteNote i ts st) := by
  unfold deleteNote
  cases hf : findIndex (fun h => h.id == i) st.history with
  | none => exact h
  | some idx =>
    dsimp only
    have h1 : stateInv { st with history := st.history.eraseIdx idx } :=
      ⟨h.1, fun x hx => h.2 x (List.Sublist.mem hx (List.eraseIdx_sublist _ _))⟩
    by_cases hc : (match st.currentNote with
      | some n => n.id == i
      | none => false) = true
    · rw [if_pos hc]
      exact stateInv_createNewNote ts _ h1
    · rw [if_neg hc]
      exact h1

/-- `updateNoteTitle` preserves the state invariant. -/
theorem stateInv_editTitle (i t : String) (st : AppState) (h : stateInv st) :
    stateInv (updateNoteTitle i t st) := by
  unfold updateNoteTitle
  cases hf : findIndex (fun h => h.id == i) st.history with
  | none => exact h
  | some idx =>
    dsimp only
    cases hg : st.history.get? idx with
    | none => exact h
    | some n =>
      dsimp only
      refine ⟨h.1, ?_⟩
      intro x hx
      rcases List.mem_or_eq_of_mem_set hx with hm | hm
      · exact h.2 x hm
      · have hmem : n ∈ st.history := List.get?_mem hg
        exact hm ▸ (h.2 n hmem)

/-- C1 amended: the direction of the polished-fields invariant that the code
maintains — non-empty markdown always comes with non-empty HTML — is
preserved by every pipeline run and session operation (given a renderer that
returns non-empty HTML on non-empty markdown); the other direction fails, as
a failed or empty polish leaves empty markdown with a non-empty placeholder
HTML. -/
theorem c1_amended_polished_inv_preserved (op : SessionOp) (st : AppState)
    (hrender : opRenderOk op) (h : stateInv st) : stateInv (applyOp op st) := by
  cases op with
  | run ora => exact stateInv_getTranscription ora st hrender h
  | newNote ts => exact stateInv_createNewNote ts st h
  | load i => exact stateInv_load i st h
  | del i ts => exact stateInv_delete i ts st h
  | editTitle i t => exact stateInv_editTitle i t st h

/-- C1 amended witness: the empty-polish pipeline run on the initial state. -/
theorem c1_amended_polished_inv_preserved_witness :
    opRenderOk (SessionOp.run oraEmptyPolish) ∧ stateInv st0 ∧
    stateInv (applyOp (SessionOp.run oraEmptyPolish) st0) := by
  have hrender : opRenderOk (SessionOp.run oraEmptyPolish) := by
    intro s hs hc
    have hlen := congrArg String.length hc
    simp only [oraEmptyPolish] at hlen
    rw [String.length_append, String.length_append] at hlen
    have e1 : ("<p>" : String).length = 3 := rfl
    have e2 : ("</p>" : String).length = 4 := rfl
    have e3 : ("" : String).length = 0 := rfl
    omega
  have hinv : stateInv st0 := by
    refine ⟨fun hm => absurd rfl hm, ?_⟩
    intro x hx
    exact absurd hx (List.not_mem_nil x)
  exact ⟨hrender, hinv,
    c1_amended_polished_inv_preserved (SessionOp.run oraEmptyPolish) st0 hrender hinv⟩

end MindExpander
